import Mathlib

/-!
# Verification of the inner-swa-app duty-roster service

Shallow embedding of the two source files of the repository:

* `saveDuty` — the Azure-Functions HTTP handler that re-verifies the
  `x-ms-client-principal` identity assertion, validates the `{duties: [...]}`
  JSON payload, and forwards it to the configured Power Automate sink;
* `handleDragEnd` — the Roster UI drag-end handler that reorders the
  in-memory duty list through dnd-kit's `arrayMove`.

JavaScript values reachable from `JSON.parse` are modelled by `JsValue`.
Property access (`v.name`) is modelled by `jsGetProp`, which throws a
`TypeError` exactly when the receiver is `null` (as JavaScript does) and
otherwise yields the property or `undefined` (modelled as `none`).
Runtime primitives that live outside the repository — base64 + `JSON.parse`
of the header, `JSON.parse` of the body, `fetch`, `new Date().toISOString()`
— are abstracted as fields of the `Env` / `Request` records; the handler is
proved correct for every behaviour of those primitives.
-/

namespace InnerSwa

/-- A JavaScript value as producible by `JSON.parse`: `null`, booleans,
numbers, strings, arrays and objects (field lists; `JSON.parse` yields
objects whose key lists are duplicate-free, later duplicates overwriting
earlier ones). -/
inductive JsValue : Type where
  | null : JsValue
  | bool : Bool → JsValue
  | num : Int → JsValue
  | str : String → JsValue
  | arr : List JsValue → JsValue
  | obj : List (String × JsValue) → JsValue
deriving Repr

/-- Exceptions are carried as plain message tags. -/
abbrev JsError := String

/-- JavaScript truthiness of a `JsValue` (`if (!v)`): `null`, `false`, `0`
and the empty string are falsy, everything else truthy. -/
def jsTruthy : JsValue → Bool
  | .null => false
  | .bool b => b
  | .num n => n != 0
  | .str s => s != ""
  | .arr _ => true
  | .obj _ => true

/-- First binding of `name` in an object's field list. -/
def lookupField : List (String × JsValue) → String → Option JsValue
  | [], _ => none
  | (k, v) :: rest, name => if k = name then some v else lookupField rest name

/-- JavaScript property access `v.name`: throws `TypeError` on `null`,
returns the field on objects, and `undefined` (`none`) on every other
receiver. -/
def jsGetProp : JsValue → String → Except JsError (Option JsValue)
  | .null, _ => .error "TypeError"
  | .obj fields, name => .ok (lookupField fields name)
  | _, _ => .ok none

/-- Total variant of property access used in specification-side statements:
`null` and non-objects simply have no properties. Agrees with `jsGetProp`
on every non-`null` receiver. -/
def jsProp : JsValue → String → Option JsValue
  | .obj fields, name => lookupField fields name
  | _, _ => none

/-- `typeof x === 'string'` on a possibly-`undefined` value. -/
def isStrOpt : Option JsValue → Bool
  | some (.str _) => true
  | _ => false

/-- Truthiness of `headers.get(...)` / `process.env.X` results
(`string | null`-valued): absent or empty string is falsy. -/
def jsTruthyOptStr : Option String → Bool
  | none => false
  | some s => s != ""

/-- The two JSON response-body shapes the handler produces:
`{error: msg}` and `{success: true, savedAt: t}`. -/
inductive JsonBody : Type where
  | err : String → JsonBody
  | success : String → JsonBody
deriving DecidableEq, Repr

/-- An HTTP result `{status, jsonBody}` as returned by the handler. -/
structure Response : Type where
  status : Nat
  jsonBody : JsonBody
deriving DecidableEq, Repr

/-- The outcome of `await fetch(...)` when a response arrives: its `ok`
flag, `status`, and the outcome of `await response.text()`. -/
structure FetchResp : Type where
  ok : Bool
  status : Nat
  textResult : Except JsError String

/-- An incoming HTTP request, as the handler observes it:
`clientPrincipalHeader` is `request.headers.get('x-ms-client-principal')`
(`none` = header absent), `jsonResult` the outcome of `await request.json()`
(`.error` = the body is not valid JSON and parsing threw). -/
structure Request : Type where
  clientPrincipalHeader : Option String
  jsonResult : Except JsError JsValue

/-- The ambient runtime the handler runs in: `parseBase64Json h` is the
outcome of `Buffer.from(h, 'base64').toString('utf-8')` followed by
`JSON.parse`; `powerAutomateUrl` is `process.env.POWER_AUTOMATE_URL`;
`now` is `new Date().toISOString()`; `fetchResult` the outcome of the one
outbound `fetch` call. -/
structure Env : Type where
  parseBase64Json : String → Except JsError JsValue
  powerAutomateUrl : Option String
  now : String
  fetchResult : Except JsError FetchResp

/-- The Submission Payload object literal `{duties, savedBy, savedAt}`
the handler builds and sends to the sink. -/
structure Payload : Type where
  duties : List JsValue
  savedBy : JsValue
  savedAt : String

/-- Embeds `decodeClientPrincipal` (source lines 22–29): decode the header
as base64, parse as JSON, and return `null` if anything throws. -/
def decodeClientPrincipal (env : Env) (headerValue : String) : JsValue :=
  match env.parseBase64Json headerValue with
  | .ok v => v
  | .error _ => .null

/-- The per-element body of the validation loop (source lines 93–106):
`typeof duty.id !== 'string' || typeof duty.day !== 'string' ||
typeof duty.member !== 'string'`, short-circuiting left to right.
`.ok false` means the element fails the check (the loop returns 400);
`.error` means a property access threw (`duty` was `null`). -/
def dutyCheck (duty : JsValue) : Except JsError Bool :=
  match jsGetProp duty "id" with
  | .error e => .error e
  | .ok i =>
    if isStrOpt i = false then .ok false
    else
      match jsGetProp duty "day" with
      | .error e => .error e
      | .ok d =>
        if isStrOpt d = false then .ok false
        else
          match jsGetProp duty "member" with
          | .error e => .error e
          | .ok m => .ok (isStrOpt m)

/-- Embeds the `for (const duty of duties)` validation loop: stops at the
first element failing `dutyCheck` (`.ok false`), propagates a thrown
`TypeError` (`.error`), and yields `.ok true` when every element passes. -/
def validateDuties : List JsValue → Except JsError Bool
  | [] => .ok true
  | duty :: rest =>
    match dutyCheck duty with
    | .error e => .error e
    | .ok false => .ok false
    | .ok true => validateDuties rest

/-- Second and third links of the fallback chain:
`principal.userId || 'unknown'`. -/
def fallbackUserId (principal : JsValue) : Except JsError JsValue :=
  match jsGetProp principal "userId" with
  | .error e => .error e
  | .ok none => .ok (.str "unknown")
  | .ok (some v) => .ok (if jsTruthy v then v else .str "unknown")

/-- Embeds `principal.userDetails || principal.userId || 'unknown'`
(source line 120), short-circuiting on JavaScript truthiness. -/
def computeSavedBy (principal : JsValue) : Except JsError JsValue :=
  match jsGetProp principal "userDetails" with
  | .error e => .error e
  | .ok none => fallbackUserId principal
  | .ok (some v) => if jsTruthy v then .ok v else fallbackUserId principal

def respNoPrincipal : Response := ⟨401, .err "Unauthorized: No client principal found"⟩
def respDecodeFail : Response := ⟨401, .err "Unauthorized: Failed to decode client principal"⟩
def respForbidden : Response := ⟨403, .err "Forbidden: AAD authentication required"⟩
def respBadJson : Response := ⟨400, .err "Bad Request: Invalid JSON body"⟩
def respDutiesShape : Response := ⟨400, .err "Bad Request: duties must be a non-empty array"⟩
def respDutyFields : Response := ⟨400, .err "Bad Request: each duty must have id, day, member as strings"⟩
def respNoUrl : Response := ⟨500, .err "Server configuration error: POWER_AUTOMATE_URL not set"⟩
def respForwardFail : Response := ⟨502, .err "Failed to forward to Power Automate"⟩
def respNetworkErr : Response := ⟨502, .err "Network error calling Power Automate"⟩
def respInternal : Response := ⟨500, .err "Internal server error"⟩
def respOk (savedAt : String) : Response := ⟨200, .success savedAt⟩

/-- Embeds the forwarding section of the handler (source lines 108–156):
the `POWER_AUTOMATE_URL` configuration check, construction of the payload
`{duties, savedBy, savedAt}`, and the `try`-guarded `fetch`: a thrown
`fetch`/`text()` is caught and mapped to 502 "Network error", a non-`ok`
response to 502 "Failed to forward", an `ok` response to
`200 {success: true, savedAt: payload.savedAt}`. -/
def forwardPhase (env : Env) (principal : JsValue) (ds : List JsValue) :
    Except JsError (Response × Option Payload) :=
  if jsTruthyOptStr env.powerAutomateUrl = false then .ok (respNoUrl, none)
  else
    match computeSavedBy principal with
    | .error e => .error e
    | .ok savedBy =>
      let payload : Payload := ⟨ds, savedBy, env.now⟩
      match env.fetchResult with
      | .error _ => .ok (respNetworkErr, some payload)
      | .ok paResponse =>
        if paResponse.ok = false then
          match paResponse.textResult with
          | .error _ => .ok (respNetworkErr, some payload)
          | .ok _ => .ok (respForwardFail, some payload)
        else .ok (respOk payload.savedAt, some payload)

/-- Embeds the body-parsing and shape-validation section of the handler
(source lines 73–106): `await request.json()` guarded by `try`/`catch`
(parse failure → 400 "Invalid JSON body"), the destructuring
`const (duties) = body` (throws on a `null` body), the
`!Array.isArray(duties) || duties.length === 0` check, and the
per-element validation loop. -/
def bodyPhase (req : Request) (env : Env) (principal : JsValue) :
    Except JsError (Response × Option Payload) :=
  match req.jsonResult with
  | .error _ => .ok (respBadJson, none)
  | .ok body =>
    match jsGetProp body "duties" with
    | .error e => .error e
    | .ok (some (.arr ds)) =>
      if ds.isEmpty then .ok (respDutiesShape, none)
      else
        match validateDuties ds with
        | .error e => .error e
        | .ok false => .ok (respDutyFields, none)
        | .ok true => forwardPhase env principal ds
    | .ok _ => .ok (respDutiesShape, none)

/-- Embeds the body of the `saveDuty` handler inside its outer `try`
(source lines 38–156): the three security gates — principal-header
presence (`if (!principalHeader)`), decode (`if (!principal)`), and
provider (`principal.identityProvider !== 'aad'`) — followed by
`bodyPhase`. `.error` is an exception escaping to the outer `catch`.
The pair's second component records the JSON body of the attempted
outbound `fetch` call (`none` when no call is made), making the handler's
one observable side effect explicit. -/
def saveDutyBody (req : Request) (env : Env) : Except JsError (Response × Option Payload) :=
  match req.clientPrincipalHeader with
  | none => .ok (respNoPrincipal, none)
  | some principalHeader =>
    if principalHeader = "" then .ok (respNoPrincipal, none)
    else
      let principal := decodeClientPrincipal env principalHeader
      if jsTruthy principal = false then .ok (respDecodeFail, none)
      else
        match jsGetProp principal "identityProvider" with
        | .error e => .error e
        | .ok (some (.str prov)) =>
          if prov = "aad" then bodyPhase req env principal
          else .ok (respForbidden, none)
        | .ok _ => .ok (respForbidden, none)

/-- The complete `saveDuty` handler (source lines 36–166): the body wrapped
in the outer `try`/`catch` that converts any escaped exception into
`500 {error: "Internal server error"}`. Total by construction — every
request/environment yields a response. -/
def saveDuty (req : Request) (env : Env) : Response × Option Payload :=
  match saveDutyBody req env with
  | .ok r => r
  | .error _ => (respInternal, none)

/-! ## Specification-side characterisations

These definitions follow the words of the specification, to be compared
with the handler embedded above. -/

/-- Specification-side per-element check: the entry's `id`, `day` and
`member` are all of string type (and nothing else is inspected). -/
def dutyEntryOk (d : JsValue) : Bool :=
  isStrOpt (jsProp d "id") && isStrOpt (jsProp d "day") && isStrOpt (jsProp d "member")

/-- Specification-side shape check on the `duties` field: present, an
array, and non-empty. -/
def dutiesNonemptyArr : Option JsValue → Bool
  | some (.arr ds) => !ds.isEmpty
  | _ => false

/-- `userId || 'unknown'` step of the fallback chain, on truthiness. -/
def orUnknown : Option JsValue → JsValue
  | none => .str "unknown"
  | some u => if jsTruthy u then u else .str "unknown"

/-- Specification-side `savedBy` fallback chain: the assertion's
`userDetails`, falling back to `userId`, falling back to the literal
`"unknown"`, each fallback taken when the previous link is absent or
falsy. -/
def specSavedBy (ud uid : Option JsValue) : JsValue :=
  match ud with
  | none => orUnknown uid
  | some v => if jsTruthy v then v else orUnknown uid

/-! ## Support lemmas -/

theorem jsGetProp_of_ne_null (v : JsValue) (name : String) (h : v ≠ JsValue.null) :
    jsGetProp v name = .ok (jsProp v name) := by
  cases v <;> simp_all [jsGetProp, jsProp]

theorem ne_null_of_truthy (v : JsValue) (h : jsTruthy v = true) : v ≠ JsValue.null := by
  intro he; subst he; simp [jsTruthy] at h

theorem dutyEntryOk_null : dutyEntryOk JsValue.null = false := rfl

theorem ne_null_of_dutyEntryOk (d : JsValue) (h : dutyEntryOk d = true) :
    d ≠ JsValue.null := by
  intro he; subst he; simp [dutyEntryOk, jsProp, isStrOpt] at h

theorem dutyCheck_of_ne_null (d : JsValue) (h : d ≠ JsValue.null) :
    dutyCheck d = .ok (dutyEntryOk d) := by
  simp only [dutyCheck, dutyEntryOk, jsGetProp_of_ne_null d _ h]
  cases h1 : isStrOpt (jsProp d "id") <;>
    cases h2 : isStrOpt (jsProp d "day") <;>
      cases h3 : isStrOpt (jsProp d "member") <;> simp [h1, h2, h3]

theorem dutyCheck_null : dutyCheck JsValue.null = .error "TypeError" := rfl

theorem validateDuties_of_all_ok (ds : List JsValue)
    (h : ∀ d ∈ ds, dutyEntryOk d = true) : validateDuties ds = .ok true := by
  induction ds with
  | nil => rfl
  | cons d rest ih =>
    have hd : dutyEntryOk d = true := h d (by simp)
    rw [validateDuties, dutyCheck_of_ne_null d (ne_null_of_dutyEntryOk d hd), hd]
    exact ih fun x hx => h x (by simp [hx])

theorem validateDuties_of_first_bad (ds : List JsValue) (w : JsValue)
    (h : ds.find? (fun d => !dutyEntryOk d) = some w) (hw : w ≠ JsValue.null) :
    validateDuties ds = .ok false := by
  induction ds with
  | nil => simp [List.find?] at h
  | cons d rest ih =>
    rw [List.find?_cons] at h
    by_cases hd : dutyEntryOk d = true
    · rw [validateDuties, dutyCheck_of_ne_null d (ne_null_of_dutyEntryOk d hd), hd]
      rw [hd] at h; simp at h
      exact ih h
    · simp only [Bool.not_eq_true] at hd
      rw [hd] at h; simp at h
      subst h
      rw [validateDuties, dutyCheck_of_ne_null d hw, hd]

theorem validateDuties_of_first_null (ds : List JsValue)
    (h : ds.find? (fun d => !dutyEntryOk d) = some JsValue.null) :
    validateDuties ds = .error "TypeError" := by
  induction ds with
  | nil => simp [List.find?] at h
  | cons d rest ih =>
    rw [List.find?_cons] at h
    by_cases hd : dutyEntryOk d = true
    · rw [validateDuties, dutyCheck_of_ne_null d (ne_null_of_dutyEntryOk d hd), hd]
      rw [hd] at h; simp at h
      exact ih h
    · simp only [Bool.not_eq_true] at hd
      rw [hd] at h; simp at h
      subst h
      rw [validateDuties, dutyCheck_null]

theorem computeSavedBy_eq_spec (principal : JsValue) (h : principal ≠ JsValue.null) :
    computeSavedBy principal =
      .ok (specSavedBy (jsProp principal "userDetails") (jsProp principal "userId")) := by
  simp only [computeSavedBy, fallbackUserId, specSavedBy, orUnknown,
    jsGetProp_of_ne_null principal _ h]
  cases jsProp principal "userDetails" with
  | none => cases jsProp principal "userId" <;> simp
  | some v =>
    by_cases hv : jsTruthy v = true
    · simp [hv]
    · simp only [Bool.not_eq_true] at hv
      simp only [hv]
      cases jsProp principal "userId" <;> simp

/-- Under the three identity gates, the handler body reduces to the
body-parsing phase. -/
theorem saveDutyBody_after_auth (req : Request) (env : Env) (hdr : String)
    (principal : JsValue)
    (hh : req.clientPrincipalHeader = some hdr) (hne : hdr ≠ "")
    (hdec : env.parseBase64Json hdr = .ok principal)
    (htr : jsTruthy principal = true)
    (hip : jsProp principal "identityProvider" = some (JsValue.str "aad")) :
    saveDutyBody req env = bodyPhase req env principal := by
  have hp : decodeClientPrincipal env hdr = principal := by
    rw [decodeClientPrincipal, hdec]
  rw [saveDutyBody, hh]
  simp [hne, hp, htr, jsGetProp_of_ne_null principal _ (ne_null_of_truthy principal htr), hip]

/-- Under a parsed body whose `duties` field is a non-empty array of
entries passing the element check, the body phase reduces to the
forwarding phase. -/
theorem bodyPhase_valid (req : Request) (env : Env) (principal body : JsValue)
    (ds : List JsValue)
    (hb : req.jsonResult = .ok body)
    (hds : jsGetProp body "duties" = .ok (some (.arr ds)))
    (hne2 : ds ≠ [])
    (hval : ∀ d ∈ ds, dutyEntryOk d = true) :
    bodyPhase req env principal = forwardPhase env principal ds := by
  rw [bodyPhase, hb]
  simp [hds, hne2, validateDuties_of_all_ok ds hval]

/-! ## Concrete material used by witnesses and counterexamples -/

def wPrincipal : JsValue :=
  .obj [("identityProvider", .str "aad"), ("userId", .str "abc123"),
        ("userDetails", .str "a@b.com"), ("userRoles", .arr [.str "authenticated"])]

def wDuty : JsValue :=
  .obj [("id", .str "mon"), ("day", .str "月曜日"), ("member", .str "田中")]

def wBody : JsValue := .obj [("duties", .arr [wDuty])]

def wFetchOk : FetchResp := ⟨true, 200, .ok ""⟩

def wEnv : Env :=
  ⟨fun _ => .ok wPrincipal, some "https://pa.example/flow",
   "2026-10-11T00:00:00.000Z", .ok wFetchOk⟩

def wReq : Request := ⟨some "header", .ok wBody⟩

/-! ## Claim theorems for the Submission Endpoint -/

/-- C1: a request that passes every gate check — identity header present
and non-empty, decodable to a truthy principal whose `identityProvider`
is `"aad"`, body parsing to JSON with a non-empty `duties` array whose
entries all carry string `id`/`day`/`member`, sink URL configured — and
whose outbound POST returns an `ok` (2xx) response, yields HTTP 200 with
body `{success: true, savedAt: env.now}`; the payload sent to the sink is
the parsed `duties` list with `savedBy` (userDetails → userId →
`"unknown"` fallback chain) and `savedAt = env.now` appended, so the
`savedAt` echoed to the caller equals the `savedAt` forwarded to the sink
(`env.now` abstracts the ISO-8601 string `new Date().toISOString()`). -/
theorem saveDuty_success_flow
    (req : Request) (env : Env) (hdr : String) (principal body : JsValue)
    (ds : List JsValue) (pa : FetchResp)
    (hh : req.clientPrincipalHeader = some hdr) (hne : hdr ≠ "")
    (hdec : env.parseBase64Json hdr = .ok principal)
    (htr : jsTruthy principal = true)
    (hip : jsProp principal "identityProvider" = some (JsValue.str "aad"))
    (hb : req.jsonResult = .ok body)
    (hds : jsGetProp body "duties" = .ok (some (.arr ds)))
    (hne2 : ds ≠ [])
    (hval : ∀ d ∈ ds, dutyEntryOk d = true)
    (hurl : jsTruthyOptStr env.powerAutomateUrl = true)
    (hf : env.fetchResult = .ok pa) (hok : pa.ok = true) :
    saveDuty req env =
      (respOk env.now,
       some ⟨ds, specSavedBy (jsProp principal "userDetails") (jsProp principal "userId"),
             env.now⟩) := by
  rw [saveDuty, saveDutyBody_after_auth req env hdr principal hh hne hdec htr hip,
    bodyPhase_valid req env principal body ds hb hds hne2 hval, forwardPhase]
  simp [hurl, hf, hok, computeSavedBy_eq_spec principal (ne_null_of_truthy principal htr)]

theorem saveDuty_success_flow_witness :
    saveDuty wReq wEnv =
      (respOk "2026-10-11T00:00:00.000Z",
       some ⟨[wDuty], .str "a@b.com", "2026-10-11T00:00:00.000Z"⟩) := by
  have h := saveDuty_success_flow wReq wEnv "header" wPrincipal wBody [wDuty] wFetchOk
    rfl (by decide) rfl rfl rfl rfl rfl (List.cons_ne_nil _ _)
    (by intro d hd; rw [List.mem_singleton] at hd; subst hd; decide) rfl rfl rfl
  exact h

/-- C2: the handler is total — every request/environment yields a
response — and any exception escaping the gate-check/forward sequence
(the body inside the outer `try`) is converted to HTTP 500
`{error: "Internal server error"}` by the outermost catch. -/
theorem saveDuty_catch_all (req : Request) (env : Env) :
    (∃ r, saveDuty req env = r) ∧
    ∀ err, saveDutyBody req env = .error err →
      saveDuty req env = (respInternal, none) := by
  refine ⟨⟨_, rfl⟩, fun err h => ?_⟩
  rw [saveDuty, h]

def wReqNullBody : Request := ⟨some "header", .ok .null⟩

theorem saveDuty_catch_all_witness :
    saveDuty wReqNullBody wEnv = (respInternal, none) :=
  (saveDuty_catch_all wReqNullBody wEnv).2 "TypeError" rfl

/-- C4 counterexample: a request without the identity header is answered
401, but the body is `{error: "Unauthorized: No client principal found"}`,
not the `{error: "No client principal found"}` the claim states. -/
theorem saveDuty_auth_message_cex :
    (saveDuty ⟨none, .ok .null⟩ wEnv).1.status = 401 ∧
    (saveDuty ⟨none, .ok .null⟩ wEnv).1.jsonBody ≠
      JsonBody.err "No client principal found" :=
  ⟨rfl, by decide⟩

/-- C4 amended: a request without the identity header is answered
`401 {error: "Unauthorized: No client principal found"}` regardless of
its body, and a request whose non-empty header value fails to decode
(the base64 + JSON.parse composite throws) is answered
`401 {error: "Unauthorized: Failed to decode client principal"}` — the
decoding error is caught and converted, never propagated. -/
theorem saveDuty_auth_gates_amended (req : Request) (env : Env) :
    (req.clientPrincipalHeader = none → saveDuty req env = (respNoPrincipal, none)) ∧
    (∀ hdr e, req.clientPrincipalHeader = some hdr → hdr ≠ "" →
      env.parseBase64Json hdr = .error e →
      saveDuty req env = (respDecodeFail, none)) := by
  constructor
  · intro h; simp [saveDuty, saveDutyBody, h]
  · intro hdr e hh hne hp
    have hd : decodeClientPrincipal env hdr = .null := by
      rw [decodeClientPrincipal, hp]
    rw [saveDuty, saveDutyBody, hh]
    simp [hne, hd, jsTruthy]

def wEnvBadB64 : Env :=
  ⟨fun _ => .error "SyntaxError", some "https://pa.example/flow",
   "2026-10-11T00:00:00.000Z", .ok wFetchOk⟩

theorem saveDuty_auth_gates_amended_witness :
    saveDuty ⟨none, .ok .null⟩ wEnv = (respNoPrincipal, none) ∧
    saveDuty ⟨some "header", .ok .null⟩ wEnvBadB64 = (respDecodeFail, none) :=
  ⟨(saveDuty_auth_gates_amended _ _).1 rfl,
   (saveDuty_auth_gates_amended _ _).2 "header" "SyntaxError" rfl (by decide) rfl⟩

def wEnvGithub : Env :=
  ⟨fun _ => .ok (.obj [("identityProvider", .str "github")]),
   some "https://pa.example/flow", "2026-10-11T00:00:00.000Z", .ok wFetchOk⟩

/-- C5 counterexample: a decoded principal with `identityProvider`
`"github"` is answered 403, but the body is
`{error: "Forbidden: AAD authentication required"}`, not the
`{error: "AAD authentication required"}` the claim states. -/
theorem saveDuty_provider_message_cex :
    (saveDuty wReq wEnvGithub).1.status = 403 ∧
    (saveDuty wReq wEnvGithub).1.jsonBody ≠
      JsonBody.err "AAD authentication required" :=
  ⟨rfl, by decide⟩

/-- C5 amended: whenever the header decodes to a truthy principal whose
`identityProvider` is not exactly the string `"aad"`, the endpoint
answers `403 {error: "Forbidden: AAD authentication required"}`, and it
does so for every value of the request body (the body is never parsed on
this path). -/
theorem saveDuty_provider_check_amended
    (req : Request) (env : Env) (hdr : String) (principal : JsValue)
    (hh : req.clientPrincipalHeader = some hdr) (hne : hdr ≠ "")
    (hdec : env.parseBase64Json hdr = .ok principal)
    (htr : jsTruthy principal = true)
    (hip : jsProp principal "identityProvider" ≠ some (JsValue.str "aad")) :
    saveDuty req env = (respForbidden, none) ∧
    ∀ j : Except JsError JsValue,
      saveDuty { req with jsonResult := j } env = (respForbidden, none) := by
  have key : ∀ j : Except JsError JsValue,
      saveDuty { req with jsonResult := j } env = (respForbidden, none) := by
    intro j
    have h9 : ({ req with jsonResult := j } : Request).clientPrincipalHeader = some hdr := hh
    have hp : decodeClientPrincipal env hdr = principal := by
      rw [decodeClientPrincipal, hdec]
    rw [saveDuty, saveDutyBody, h9]
    simp only [hp]
    cases hv : jsProp principal "identityProvider" with
    | none =>
      simp [hne, htr, jsGetProp_of_ne_null principal _ (ne_null_of_truthy principal htr), hv]
    | some v =>
      have hgp := jsGetProp_of_ne_null principal "identityProvider"
        (ne_null_of_truthy principal htr)
      rw [hv] at hgp
      cases v with
      | str s =>
        have hs : s ≠ "aad" := by
          intro hcon; subst hcon; exact hip hv
        simp [hne, htr, hgp, hs]
      | null => simp [hne, htr, hgp]
      | bool b => simp [hne, htr, hgp]
      | num n => simp [hne, htr, hgp]
      | arr l => simp [hne, htr, hgp]
      | obj fields => simp [hne, htr, hgp]
  exact ⟨key req.jsonResult, key⟩

theorem saveDuty_provider_check_amended_witness :
    saveDuty wReq wEnvGithub = (respForbidden, none) :=
  (saveDuty_provider_check_amended wReq wEnvGithub "header"
    (.obj [("identityProvider", .str "github")])
    rfl (by decide) rfl rfl (by simp [jsProp, lookupField])).1

def wReqNoDuties : Request := ⟨some "header", .ok (.obj [])⟩

/-- C3 counterexample: an authenticated request whose JSON body lacks the
`duties` field is answered 400, but with body
`{error: "Bad Request: duties must be a non-empty array"}`, not the
`{error: "duties must be a non-empty array"}` the claim states. -/
theorem saveDuty_duties_message_cex :
    (saveDuty wReqNoDuties wEnv).1.status = 400 ∧
    (saveDuty wReqNoDuties wEnv).1.jsonBody ≠
      JsonBody.err "duties must be a non-empty array" :=
  ⟨rfl, by decide⟩

/-- C3 amended: for an authenticated request whose body parses as JSON to
a non-`null` value: if `duties` is missing, not an array, or empty, the
endpoint answers `400 {error: "Bad Request: duties must be a non-empty
array"}`; otherwise validation stops at the first element lacking a
string `id`/`day`/`member` — if that element is not JSON `null` the
endpoint answers `400 {error: "Bad Request: each duty must have id, day,
member as strings"}`, while a first-violating `null` element makes the
property access throw, so the catch-all answers
`500 {error: "Internal server error"}` instead (a JSON-`null` body
likewise reaches the catch-all). -/
theorem saveDuty_shape_validation_amended
    (req : Request) (env : Env) (hdr : String) (principal body : JsValue)
    (hh : req.clientPrincipalHeader = some hdr) (hne : hdr ≠ "")
    (hdec : env.parseBase64Json hdr = .ok principal)
    (htr : jsTruthy principal = true)
    (hip : jsProp principal "identityProvider" = some (JsValue.str "aad"))
    (hb : req.jsonResult = .ok body) (hbn : body ≠ JsValue.null) :
    (dutiesNonemptyArr (jsProp body "duties") = false →
      saveDuty req env = (respDutiesShape, none)) ∧
    (∀ ds w, jsProp body "duties" = some (.arr ds) →
      ds.find? (fun d => !dutyEntryOk d) = some w →
      (w ≠ JsValue.null → saveDuty req env = (respDutyFields, none)) ∧
      (w = JsValue.null → saveDuty req env = (respInternal, none))) := by
  have hred := saveDutyBody_after_auth req env hdr principal hh hne hdec htr hip
  have hgp := jsGetProp_of_ne_null body "duties" hbn
  constructor
  · intro hshape
    cases hv : jsProp body "duties" with
    | none => simp [saveDuty, hred, bodyPhase, hb, hgp, hv]
    | some v =>
      rw [hv] at hshape
      cases v with
      | arr ds =>
        simp only [dutiesNonemptyArr, Bool.not_eq_false'] at hshape
        simp [saveDuty, hred, bodyPhase, hb, hgp, hv, hshape]
      | null => simp [saveDuty, hred, bodyPhase, hb, hgp, hv]
      | bool b => simp [saveDuty, hred, bodyPhase, hb, hgp, hv]
      | num n => simp [saveDuty, hred, bodyPhase, hb, hgp, hv]
      | str s => simp [saveDuty, hred, bodyPhase, hb, hgp, hv]
      | obj fields => simp [saveDuty, hred, bodyPhase, hb, hgp, hv]
  · intro ds w hv hfind
    have hne3 : ds.isEmpty = false := by
      cases ds with
      | nil => simp [List.find?] at hfind
      | cons d rest => simp
    constructor
    · intro hw
      simp [saveDuty, hred, bodyPhase, hb, hgp, hv, hne3,
        validateDuties_of_first_bad ds w hfind hw]
    · intro hw
      subst hw
      simp [saveDuty, hred, bodyPhase, hb, hgp, hv, hne3,
        validateDuties_of_first_null ds hfind]

def wDutyBad : JsValue :=
  .obj [("id", .str "mon"), ("day", .num 5), ("member", .str "x")]

def wReqBadDuty : Request :=
  ⟨some "header", .ok (.obj [("duties", .arr [wDutyBad])])⟩

theorem saveDuty_shape_validation_amended_witness :
    saveDuty wReqBadDuty wEnv = (respDutyFields, none) :=
  ((saveDuty_shape_validation_amended wReqBadDuty wEnv "header" wPrincipal
      (.obj [("duties", .arr [wDutyBad])])
      rfl (by decide) rfl rfl rfl rfl (by simp)).2
    [wDutyBad] wDutyBad rfl rfl).1 (by simp [wDutyBad])

def wEnvSink500 : Env :=
  ⟨fun _ => .ok wPrincipal, some "https://pa.example/flow",
   "2026-10-11T00:00:00.000Z", .ok ⟨false, 500, .ok "boom"⟩⟩

/-- C6 counterexample: a fully valid request against a sink answering 500
is answered 502, but with body
`{error: "Failed to forward to Power Automate"}`, not the
`{error: "Failed to forward"}` the claim states. -/
theorem saveDuty_forward_message_cex :
    (saveDuty wReq wEnvSink500).1.status = 502 ∧
    (saveDuty wReq wEnvSink500).1.jsonBody ≠ JsonBody.err "Failed to forward" :=
  ⟨rfl, by decide⟩

/-- C6 amended: for a fully validated request, a sink response that is
not `ok` (non-2xx) whose body read succeeds is answered
`502 {error: "Failed to forward to Power Automate"}` whatever the sink's
status and body (neither is echoed — the response is the same constant
for every status and body text); a network-level `fetch` failure with no
response is answered `502 {error: "Network error calling Power
Automate"}`. -/
theorem saveDuty_upstream_failure_amended
    (req : Request) (env : Env) (hdr : String) (principal body : JsValue)
    (ds : List JsValue)
    (hh : req.clientPrincipalHeader = some hdr) (hne : hdr ≠ "")
    (hdec : env.parseBase64Json hdr = .ok principal)
    (htr : jsTruthy principal = true)
    (hip : jsProp principal "identityProvider" = some (JsValue.str "aad"))
    (hb : req.jsonResult = .ok body)
    (hds : jsGetProp body "duties" = .ok (some (.arr ds)))
    (hne2 : ds ≠ [])
    (hval : ∀ d ∈ ds, dutyEntryOk d = true)
    (hurl : jsTruthyOptStr env.powerAutomateUrl = true) :
    (∀ pa t, env.fetchResult = .ok pa → pa.ok = false → pa.textResult = .ok t →
      saveDuty req env =
        (respForwardFail,
         some ⟨ds, specSavedBy (jsProp principal "userDetails") (jsProp principal "userId"),
               env.now⟩)) ∧
    (∀ e, env.fetchResult = .error e →
      saveDuty req env =
        (respNetworkErr,
         some ⟨ds, specSavedBy (jsProp principal "userDetails") (jsProp principal "userId"),
               env.now⟩)) ∧
    (∀ pa e, env.fetchResult = .ok pa → pa.ok = false → pa.textResult = .error e →
      saveDuty req env =
        (respNetworkErr,
         some ⟨ds, specSavedBy (jsProp principal "userDetails") (jsProp principal "userId"),
               env.now⟩)) := by
  have hred := saveDutyBody_after_auth req env hdr principal hh hne hdec htr hip
  have hbp := bodyPhase_valid req env principal body ds hb hds hne2 hval
  have hsb := computeSavedBy_eq_spec principal (ne_null_of_truthy principal htr)
  refine ⟨?_, ?_, ?_⟩
  · intro pa t hf hok ht
    simp [saveDuty, hred, hbp, forwardPhase, hurl, hsb, hf, hok, ht]
  · intro e hf
    simp [saveDuty, hred, hbp, forwardPhase, hurl, hsb, hf]
  · intro pa e hf hok ht
    simp [saveDuty, hred, hbp, forwardPhase, hurl, hsb, hf, hok, ht]

def wEnvSinkTextThrow : Env :=
  ⟨fun _ => .ok wPrincipal, some "https://pa.example/flow",
   "2026-10-11T00:00:00.000Z", .ok ⟨false, 500, .error "AbortError"⟩⟩

theorem saveDuty_upstream_failure_amended_witness :
    saveDuty wReq wEnvSink500 =
      (respForwardFail,
       some ⟨[wDuty], .str "a@b.com", "2026-10-11T00:00:00.000Z"⟩) ∧
    saveDuty wReq wEnvSinkTextThrow =
      (respNetworkErr,
       some ⟨[wDuty], .str "a@b.com", "2026-10-11T00:00:00.000Z"⟩) := by
  constructor
  · have h := (saveDuty_upstream_failure_amended wReq wEnvSink500 "header" wPrincipal wBody
      [wDuty] rfl (by decide) rfl rfl rfl rfl rfl (List.cons_ne_nil _ _) (by decide) rfl).1
      ⟨false, 500, .ok "boom"⟩ "boom" rfl rfl rfl
    exact h
  · have h := (saveDuty_upstream_failure_amended wReq wEnvSinkTextThrow "header" wPrincipal
      wBody [wDuty] rfl (by decide) rfl rfl rfl rfl rfl (List.cons_ne_nil _ _) (by decide)
      rfl).2.2 ⟨false, 500, .error "AbortError"⟩ "AbortError" rfl rfl rfl
    exact h

def wEnvNoUrl : Env :=
  ⟨fun _ => .ok wPrincipal, none, "2026-10-11T00:00:00.000Z", .ok wFetchOk⟩

/-- C7 counterexample: a fully valid request with no sink URL configured
is answered 500, but with body `{error: "Server configuration error:
POWER_AUTOMATE_URL not set"}`, not the
`{error: "POWER_AUTOMATE_URL not set"}` the claim states. -/
theorem saveDuty_config_message_cex :
    (saveDuty wReq wEnvNoUrl).1.status = 500 ∧
    (saveDuty wReq wEnvNoUrl).1.jsonBody ≠
      JsonBody.err "POWER_AUTOMATE_URL not set" :=
  ⟨rfl, by decide⟩

/-- C7 amended: a request passing identity verification and payload-shape
validation with the sink URL absent (or empty) in configuration is
answered `500 {error: "Server configuration error: POWER_AUTOMATE_URL
not set"}`; the check runs after payload validation, so a malformed
payload is answered 400 even under the same missing configuration. -/
theorem saveDuty_config_check_amended
    (req : Request) (env : Env) (hdr : String) (principal body : JsValue)
    (hh : req.clientPrincipalHeader = some hdr) (hne : hdr ≠ "")
    (hdec : env.parseBase64Json hdr = .ok principal)
    (htr : jsTruthy principal = true)
    (hip : jsProp principal "identityProvider" = some (JsValue.str "aad"))
    (hb : req.jsonResult = .ok body) (hbn : body ≠ JsValue.null)
    (hurl : jsTruthyOptStr env.powerAutomateUrl = false) :
    (∀ ds, jsGetProp body "duties" = .ok (some (.arr ds)) → ds ≠ [] →
      (∀ d ∈ ds, dutyEntryOk d = true) →
      saveDuty req env = (respNoUrl, none)) ∧
    (dutiesNonemptyArr (jsProp body "duties") = false →
      saveDuty req env = (respDutiesShape, none)) := by
  have hred := saveDutyBody_after_auth req env hdr principal hh hne hdec htr hip
  constructor
  · intro ds hds hne2 hval
    have hbp := bodyPhase_valid req env principal body ds hb hds hne2 hval
    simp [saveDuty, hred, hbp, forwardPhase, hurl]
  · exact (saveDuty_shape_validation_amended req env hdr principal body
      hh hne hdec htr hip hb hbn).1

theorem saveDuty_config_check_amended_witness :
    saveDuty wReq wEnvNoUrl = (respNoUrl, none) :=
  (saveDuty_config_check_amended wReq wEnvNoUrl "header" wPrincipal wBody
    rfl (by decide) rfl rfl rfl rfl (by simp [wBody]) rfl).1
    [wDuty] rfl (List.cons_ne_nil _ _) (by decide)

/-- C9: the `savedBy` fallback chain is decided by JavaScript falsiness,
not field absence — when the decoded principal's `userDetails` is present
but falsy (e.g. the empty string), `savedBy` falls back to `userId`, and
when that is falsy too, to the literal `"unknown"`. -/
theorem computeSavedBy_falsy_fallback
    (principal ud : JsValue) (uid : Option JsValue)
    (hnn : principal ≠ JsValue.null)
    (hud : jsProp principal "userDetails" = some ud)
    (hfalsy : jsTruthy ud = false)
    (huid : jsProp principal "userId" = uid) :
    computeSavedBy principal = .ok (orUnknown uid) := by
  rw [computeSavedBy_eq_spec principal hnn, hud, huid]
  simp [specSavedBy, hfalsy]

def wPrincipalFalsy : JsValue :=
  .obj [("identityProvider", .str "aad"), ("userId", .str ""),
        ("userDetails", .str "")]

theorem computeSavedBy_falsy_fallback_witness :
    computeSavedBy wPrincipalFalsy = .ok (.str "unknown") := by
  have h := computeSavedBy_falsy_fallback wPrincipalFalsy (.str "") (some (.str ""))
    (by simp [wPrincipalFalsy]) rfl (by decide) rfl
  exact h

/-- C10: payload validation only requires `duties` to be a non-empty
array of elements whose `id`, `day`, `member` are strings — elements may
carry extra fields or duplicate ids — and the parsed `duties` list is
forwarded to the sink verbatim as the payload's `duties` component,
whatever the fetch outcome (no projection onto the three fields, no
deduplication). -/
theorem saveDuty_forward_verbatim
    (req : Request) (env : Env) (hdr : String) (principal body : JsValue)
    (ds : List JsValue)
    (hh : req.clientPrincipalHeader = some hdr) (hne : hdr ≠ "")
    (hdec : env.parseBase64Json hdr = .ok principal)
    (htr : jsTruthy principal = true)
    (hip : jsProp principal "identityProvider" = some (JsValue.str "aad"))
    (hb : req.jsonResult = .ok body)
    (hds : jsGetProp body "duties" = .ok (some (.arr ds)))
    (hne2 : ds ≠ [])
    (hval : ∀ d ∈ ds, dutyEntryOk d = true)
    (hurl : jsTruthyOptStr env.powerAutomateUrl = true) :
    (saveDuty req env).2 =
      some ⟨ds, specSavedBy (jsProp principal "userDetails") (jsProp principal "userId"),
            env.now⟩ := by
  have hred := saveDutyBody_after_auth req env hdr principal hh hne hdec htr hip
  have hbp := bodyPhase_valid req env principal body ds hb hds hne2 hval
  have hsb := computeSavedBy_eq_spec principal (ne_null_of_truthy principal htr)
  cases hf : env.fetchResult with
  | error e => simp [saveDuty, hred, hbp, forwardPhase, hurl, hsb, hf]
  | ok pa =>
    cases hok : pa.ok with
    | true => simp [saveDuty, hred, hbp, forwardPhase, hurl, hsb, hf, hok]
    | false =>
      cases ht : pa.textResult with
      | error e => simp [saveDuty, hred, hbp, forwardPhase, hurl, hsb, hf, hok, ht]
      | ok t => simp [saveDuty, hred, hbp, forwardPhase, hurl, hsb, hf, hok, ht]

def wDutyExtra : JsValue :=
  .obj [("id", .str "mon"), ("day", .str "月曜日"), ("member", .str "佐藤"),
        ("note", .num 5)]

def wDutyDupId : JsValue :=
  .obj [("id", .str "mon"), ("day", .str "火曜日"), ("member", .str "鈴木")]

def wReqDup : Request :=
  ⟨some "header", .ok (.obj [("duties", .arr [wDutyExtra, wDutyDupId])])⟩

theorem saveDuty_forward_verbatim_witness :
    (saveDuty wReqDup wEnv).2 =
      some ⟨[wDutyExtra, wDutyDupId], .str "a@b.com", "2026-10-11T00:00:00.000Z"⟩ := by
  have h := saveDuty_forward_verbatim wReqDup wEnv "header" wPrincipal
    (.obj [("duties", .arr [wDutyExtra, wDutyDupId])]) [wDutyExtra, wDutyDupId]
    rfl (by decide) rfl rfl rfl rfl rfl (List.cons_ne_nil _ _) (by decide) rfl
  exact h

/-! ## Roster UI: drag-end reordering -/

/-- One entry of the roster list (`DutyItem` in the UI source). -/
structure DutyItem : Type where
  id : String
  day : String
  member : String
deriving DecidableEq, Repr

/-- The part of a dnd-kit `DragEndEvent` the handler reads: `active.id`
and `over?.id` (`none` when the card was dropped over nothing). -/
structure DragEndEvent : Type where
  activeId : String
  overId : Option String
deriving DecidableEq, Repr

/-- Embeds dnd-kit's `arrayMove(array, from, to)` — remove the element at
`from`, re-insert it at `to` — on the index domain `handleDragEnd`
exercises (both indices produced by `findIndex` hits). -/
def arrayMove {α : Type} (l : List α) (i j : Nat) : List α :=
  match l[i]? with
  | none => l
  | some x => (l.eraseIdx i).insertIdx j x

/-- Embeds the UI's `handleDragEnd` (pointer drag or keyboard move): when
the drop target exists and differs from the dragged card, look up both
ids with `findIndex` and `arrayMove` the entry. dnd-kit delivers events
whose `active.id` / `over.id` are ids of entries of the rendered list;
for an id that does not occur (where JavaScript's `findIndex` would
yield -1, a path the sortable context cannot produce) the embedding
leaves the list unchanged. -/
def handleDragEnd (duties : List DutyItem) (ev : DragEndEvent) : List DutyItem :=
  match ev.overId with
  | none => duties
  | some overId =>
    if ev.activeId = overId then duties
    else
      let oldIndex := duties.findIdx fun d => d.id == ev.activeId
      let newIndex := duties.findIdx fun d => d.id == overId
      arrayMove duties oldIndex newIndex

theorem perm_cons_eraseIdx_getElem {α : Type} (l : List α) (i : Nat) (x : α)
    (h : l[i]? = some x) : (x :: l.eraseIdx i).Perm l := by
  obtain ⟨hi, hx⟩ := List.getElem?_eq_some.mp h
  rw [List.eraseIdx_eq_take_drop_succ]
  refine List.Perm.trans List.perm_middle.symm ?_
  rw [← hx, List.getElem_cons_drop, List.take_append_drop]

theorem arrayMove_perm {α : Type} (l : List α) (i j : Nat) (hj : j < l.length) :
    (arrayMove l i j).Perm l := by
  simp only [arrayMove]
  cases hx : l[i]? with
  | none => exact List.Perm.refl l
  | some x =>
    obtain ⟨hi, _⟩ := List.getElem?_eq_some.mp hx
    have hje : j ≤ (l.eraseIdx i).length := by
      rw [List.length_eraseIdx, if_pos hi]
      exact Nat.le_pred_of_lt hj
    exact (List.perm_insertIdx x _ hje).trans (perm_cons_eraseIdx_getElem l i x hx)

theorem arrayMove_getElem_moved {α : Type} (l : List α) (i j : Nat) (x : α)
    (hx : l[i]? = some x) (hj : j < l.length) :
    (arrayMove l i j)[j]? = some x := by
  simp only [arrayMove, hx]
  obtain ⟨hi, _⟩ := List.getElem?_eq_some.mp hx
  have hje : j ≤ (l.eraseIdx i).length := by
    rw [List.length_eraseIdx, if_pos hi]
    exact Nat.le_pred_of_lt hj
  have hlt : j < ((l.eraseIdx i).insertIdx j x).length := by
    rw [List.length_insertIdx _ _ hje]
    omega
  rw [List.getElem?_eq_getElem hlt, List.getElem_insertIdx_self _ _ _ hje]

/-- A single drag-end step whose target id (when present) occurs in the
list permutes the list. -/
theorem handleDragEnd_perm (l : List DutyItem) (ev : DragEndEvent)
    (h : ∀ o, ev.overId = some o → o ∈ l.map DutyItem.id) :
    (handleDragEnd l ev).Perm l := by
  simp only [handleDragEnd]
  cases hov : ev.overId with
  | none => exact List.Perm.refl l
  | some o =>
    by_cases hao : ev.activeId = o
    · simp [hao]
    · simp only [if_neg hao]
      apply arrayMove_perm
      obtain ⟨d, hd, hdo⟩ := List.mem_map.mp (h o hov)
      exact List.findIdx_lt_length_of_exists ⟨d, hd, by simp [hdo]⟩

theorem foldl_handleDragEnd_perm (ds : List DutyItem) (evs : List DragEndEvent)
    (hvalid : ∀ ev ∈ evs, ∀ o, ev.overId = some o → o ∈ ds.map DutyItem.id) :
    (evs.foldl handleDragEnd ds).Perm ds := by
  suffices H : ∀ l : List DutyItem, l.Perm ds → (evs.foldl handleDragEnd l).Perm ds from
    H ds (List.Perm.refl ds)
  induction evs with
  | nil => intro l hl; simpa using hl
  | cons ev rest ih =>
    intro l hl
    simp only [List.foldl_cons]
    refine ih (fun e he o ho => hvalid e (by simp [he]) o ho) _ ?_
    refine (handleDragEnd_perm l ev fun o ho => ?_).trans hl
    exact (hl.map DutyItem.id).mem_iff.mpr (hvalid ev (by simp) o ho)

/-- A drag of entry `a` onto the slot occupied by the entry with id `o`
puts `a` at that slot's index. -/
theorem handleDragEnd_position (l : List DutyItem) (ev : DragEndEvent)
    (o : String) (a : DutyItem)
    (hnd : (l.map DutyItem.id).Nodup)
    (hov : ev.overId = some o) (hao : ev.activeId ≠ o)
    (ha : a ∈ l) (haid : a.id = ev.activeId)
    (ho : o ∈ l.map DutyItem.id) :
    (handleDragEnd l ev)[l.findIdx fun d => d.id == o]? = some a := by
  have hex_a : ∃ d ∈ l, (fun d => d.id == ev.activeId) d = true := ⟨a, ha, by simp [haid]⟩
  have hi : l.findIdx (fun d => d.id == ev.activeId) < l.length :=
    List.findIdx_lt_length_of_exists hex_a
  have hid :
      (l[l.findIdx fun d => d.id == ev.activeId]).id == ev.activeId :=
    List.findIdx_getElem (w := hi)
  have heq : l[l.findIdx fun d => d.id == ev.activeId] = a :=
    List.inj_on_of_nodup_map hnd (List.getElem_mem hi) ha
      ((eq_of_beq hid).trans haid.symm)
  have hxa : l[l.findIdx fun d => d.id == ev.activeId]? = some a := by
    rw [List.getElem?_eq_getElem hi, heq]
  have hex_o : ∃ d ∈ l, (fun d => d.id == o) d = true := by
    obtain ⟨d, hd, hdo⟩ := List.mem_map.mp ho
    exact ⟨d, hd, by simp [hdo]⟩
  have hj : l.findIdx (fun d => d.id == o) < l.length :=
    List.findIdx_lt_length_of_exists hex_o
  simp only [handleDragEnd, hov, if_neg hao]
  exact arrayMove_getElem_moved l _ _ a hxa hj

/-- C8: starting from a duty list with distinct ids, any sequence of
drag/keyboard move operations delivered by the drag-end handler (each
event's target id naming an entry of the list) yields a permutation of
the original entries — no duplication, no loss — and a single operation
dragging entry `a` onto the slot at position `k` (the index of the
`over` entry) leaves `a` at position `k`. -/
theorem handleDragEnd_reorder
    (ds : List DutyItem) (evs : List DragEndEvent)
    (_hnd : (ds.map DutyItem.id).Nodup)
    (hvalid : ∀ ev ∈ evs, ∀ o, ev.overId = some o → o ∈ ds.map DutyItem.id) :
    (evs.foldl handleDragEnd ds).Perm ds ∧
    (∀ (l : List DutyItem) (ev : DragEndEvent) (o : String) (a : DutyItem),
      (l.map DutyItem.id).Nodup → ev.overId = some o → ev.activeId ≠ o →
      a ∈ l → a.id = ev.activeId → o ∈ l.map DutyItem.id →
      (handleDragEnd l ev)[l.findIdx fun d => d.id == o]? = some a) :=
  ⟨foldl_handleDragEnd_perm ds evs hvalid,
   fun l ev o a hnd2 hov hao ha haid ho =>
     handleDragEnd_position l ev o a hnd2 hov hao ha haid ho⟩

/-- The five-entry seed list `INITIAL_DUTIES` of the UI source. -/
def wInitialDuties : List DutyItem :=
  [⟨"mon", "月曜日", "田中 太郎"⟩, ⟨"tue", "火曜日", "鈴木 花子"⟩,
   ⟨"wed", "水曜日", "佐藤 一郎"⟩, ⟨"thu", "木曜日", "山田 美咲"⟩,
   ⟨"fri", "金曜日", "伊藤 健二"⟩]

def wEvents : List DragEndEvent :=
  [⟨"mon", some "wed"⟩, ⟨"fri", some "tue"⟩, ⟨"thu", none⟩]

theorem handleDragEnd_reorder_witness :
    (wEvents.foldl handleDragEnd wInitialDuties).Perm wInitialDuties ∧
    (handleDragEnd wInitialDuties ⟨"mon", some "wed"⟩)[2]? =
      some ⟨"mon", "月曜日", "田中 太郎"⟩ := by
  have h := handleDragEnd_reorder wInitialDuties wEvents (by decide) ?hv
  case hv =>
    intro ev hev o ho
    simp only [wEvents, List.mem_cons, List.not_mem_nil, or_false] at hev
    rcases hev with rfl | rfl | rfl
    · injection ho with h9
      subst h9
      decide
    · injection ho with h9
      subst h9
      decide
    · simp at ho
  refine ⟨h.1, ?_⟩
  exact h.2 wInitialDuties ⟨"mon", some "wed"⟩ "wed" ⟨"mon", "月曜日", "田中 太郎"⟩
    (by decide) rfl (by decide) (by decide) rfl (by decide)

end InnerSwa
